import Mathlib

/-!
# Verification of the vite-tsconfig-paths resolution core

A shallow embedding of `src/index.ts` (the whole repository is that single
file).  Pure string manipulation is translated directly; the stateful
per-resolver cache becomes explicit state passing (`resolverStep`); the
asynchronous external collaborators (Vite's own resolver, the compiled
`tsconfig-paths` matcher, the config loaders) are abstracted as function
parameters, exactly as the plugin treats them as black boxes.

Strings are manipulated through `List Char` helpers so that every
definition reduces inside the kernel (Lean's built-in `String.splitOn`
and friends use well-founded recursion which does not).  All paths in
this plugin are POSIX style (the source imports `posix` from `path` and
pipes everything through Vite's `normalizePath`), and specifiers/paths
are ASCII, so character counts coincide with JS string indices.
-/

/-! ## String helpers (kernel-reducible models of the JS string operations) -/

/-- `prefix.isPrefixOf`-based model of JS `String.prototype.startsWith`. -/
def strStartsWith (s pre : String) : Bool :=
  pre.toList.isPrefixOf s.toList

/-- Model of JS `String.prototype.endsWith`. -/
def strEndsWith (s suf : String) : Bool :=
  suf.toList.isSuffixOf s.toList

/-- Character count of a string (JS `length` for ASCII strings). -/
def strLength (s : String) : Nat := s.toList.length

/-- Model of JS `String.prototype.slice(n)` for ASCII strings. -/
def strDrop (s : String) (n : Nat) : String := String.mk (s.toList.drop n)

/-- Does `needle` occur as a contiguous run inside `hay`?  Models a
`RegExp.test` with a literal pattern such as `/\/node_modules\//`. -/
def listInfix (needle : List Char) : List Char → Bool
  | [] => needle.isEmpty
  | c :: rest => needle.isPrefixOf (c :: rest) || listInfix needle rest

/-- Split a character list at every occurrence of `sep`; models JS
`String.prototype.split` with a one-character separator (`"".split` gives
`[""]`, i.e. `[[]]`). -/
def splitOnChar (sep : Char) : List Char → List (List Char)
  | [] => [[]]
  | c :: rest =>
    if c = sep then [] :: splitOnChar sep rest
    else
      match splitOnChar sep rest with
      | [] => [[c]]
      | g :: gs => (c :: g) :: gs

/-! ## POSIX path model (Node's `path.posix`, an external collaborator of
the plugin; modelled from Node's documented behaviour as used here:
`process.cwd()` never enters because the plugin only hands absolute
bases to `resolve`). -/

/-- Core of Node's `normalizeString`: fold path segments, dropping `""`
and `"."`, popping a segment on `".."` (keeping leading `".."`s only for
relative paths, `allowAboveRoot`). -/
def normSegs (allowAboveRoot : Bool) (stack : List (List Char)) :
    List (List Char) → List (List Char)
  | [] => stack
  | s :: rest =>
    if s = [] ∨ s = ['.'] then normSegs allowAboveRoot stack rest
    else if s = ['.', '.'] then
      match stack.getLast? with
      | some t =>
        if t = ['.', '.'] then
          if allowAboveRoot then normSegs allowAboveRoot (stack ++ [['.', '.']]) rest
          else normSegs allowAboveRoot stack rest
        else normSegs allowAboveRoot stack.dropLast rest
      | none =>
        if allowAboveRoot then normSegs allowAboveRoot [['.', '.']] rest
        else normSegs allowAboveRoot stack rest
    else normSegs allowAboveRoot (stack ++ [s]) rest

/-- Join segments back with `/`. -/
def joinSegs : List (List Char) → List Char
  | [] => []
  | [s] => s
  | s :: rest => s ++ '/' :: joinSegs rest

/-- Model of Node's `path.posix.normalize` (also Vite's `normalizePath`
on non-Windows hosts, which is exactly `posix.normalize`). -/
def posixNormalize (p : String) : String :=
  if p = "" then "." else
  let isAbs := strStartsWith p "/"
  let trailing := strEndsWith p "/"
  let body := joinSegs (normSegs (!isAbs) [] (splitOnChar '/' p.toList))
  if body = [] then (if isAbs then "/" else if trailing then "./" else ".")
  else
    let body := if trailing then body ++ ['/'] else body
    if isAbs then String.mk ('/' :: body) else String.mk body

/-- Model of Node's `path.posix.resolve(a, b)` for the plugin's use,
where the accumulated path is always absolute (so the `process.cwd()`
fallback never fires). -/
def posixResolve2 (a b : String) : String :=
  let joined :=
    if strStartsWith b "/" then b
    else if b = "" then a
    else if a = "" then b
    else a ++ "/" ++ b
  let isAbs := strStartsWith joined "/"
  let body := joinSegs (normSegs (!isAbs) [] (splitOnChar '/' joined.toList))
  if isAbs then String.mk ('/' :: body)
  else if body = [] then "." else String.mk body

/-- Model of Node's `path.posix.join(a, b)` (filter empty parts, join
with `/`, normalize; `join()` of nothing is `"."`). -/
def posixJoin (a b : String) : String :=
  if a = "" ∧ b = "" then "."
  else if a = "" then posixNormalize b
  else if b = "" then posixNormalize a
  else posixNormalize (a ++ "/" ++ b)

/-- Model of Node's `path.posix.dirname`: skip trailing separators, cut
before the last separator of the remaining prefix. -/
def posixDirname (p : String) : String :=
  if p = "" then "." else
  let hasRoot := strStartsWith p "/"
  let r2 := (p.toList.reverse.dropWhile (fun c => c = '/')).dropWhile (fun c => c ≠ '/')
  if r2.length ≤ 1 then (if hasRoot then "/" else ".")
  else if hasRoot ∧ r2.length = 2 then "//"
  else String.mk (p.toList.take (r2.length - 1))

/-! ## Glob matcher

`compileGlob` in the source feeds the pattern to `globrex` with
`{ extended: true }` (so `globstar` is off: any run of `*` compiles to
`.*`, matching across `/`).  The include/exclude patterns this plugin
compiles contain no extended-syntax metacharacters, so the compiled
regex is literal characters interleaved with `.*`; `Tok` captures
exactly that shape and `tokMatch` is its anchored-match semantics
(a run of consecutive `star`s matches the same language as one). -/

inductive Tok where
  | lit (c : Char)
  | star
deriving DecidableEq

/-- Tokenize a glob string: `*` becomes `star`, anything else a literal
(globrex escapes regex metacharacters, so they stay literal). -/
def globToTokens : List Char → List Tok
  | [] => []
  | c :: rest => (if c = '*' then Tok.star else Tok.lit c) :: globToTokens rest

/-- Anchored matching of a token list against a character list; `star`
matches any (possibly empty) run of characters, `/` included, which is
`.*` under `globstar: false`. -/
def tokMatch : List Tok → List Char → Bool
  | [], cs => cs.isEmpty
  | .lit _ :: _, [] => false
  | .lit c :: ts, d :: ds => c = d && tokMatch ts ds
  | .star :: ts, cs => (List.range (cs.length + 1)).any (fun n => tokMatch ts (cs.drop n))

/-- `compileGlob` from the source: append a recursive match-all suffix
unless the glob already ends in a wildcard, then compile. -/
def compileGlob (glob : String) : List Tok :=
  globToTokens (glob ++ (if strEndsWith glob "*" then "" else "**/*")).toList

/-! ## Compiler options and the inclusion filter -/

/-- The fields `loadCompilerOptions` extracts from the raw tsconfig
(via the external `loadTsconfig`). -/
structure RawTsconfig where
  includePatterns : Option (List String)
  excludePatterns : Option (List String)
  allowJs : Bool
  checkJs : Bool

structure CompilerOptions where
  includePatterns : Option (List String)
  excludePatterns : Option (List String)
  allowJs : Bool

/-- `loadCompilerOptions` from the source: `allowJs := allowJs || checkJs`.
(`include`/`exclude` are spelled `includePatterns`/`excludePatterns`
because `include` is a Lean keyword.) -/
def loadCompilerOptions (raw : RawTsconfig) : CompilerOptions :=
  { includePatterns := raw.includePatterns, excludePatterns := raw.excludePatterns,
    allowJs := raw.allowJs || raw.checkJs }

/-- `getIncluder` from the source (`include`/`exclude` default to `[]`
when absent, mirroring the JS destructuring defaults). -/
def getIncluder (co : CompilerOptions) : String → Bool :=
  let inc := co.includePatterns.getD []
  let exc := co.excludePatterns.getD []
  if inc.length != 0 || exc.length != 0 then
    let included := inc.map compileGlob
    let excluded := exc.map compileGlob
    fun path =>
      (included.length == 0 || included.any (fun g => tokMatch g path.toList)) &&
      (excluded.length == 0 || !(excluded.any (fun g => tokMatch g path.toList)))
  else fun _ => true

/-! ## Gating predicates -/

/-- `relativeImportRE = /^\.\.?(\/|$)/`: matches exactly `"."`, `".."`,
and anything starting with `"./"` or `"../"`. -/
def relativeImportTest (id : String) : Bool :=
  id == "." || id == ".." || strStartsWith id "./" || strStartsWith id "../"

/-- Node's `path.isAbsolute` on the POSIX hosts this model covers. -/
def isAbsoluteTest (id : String) : Bool := strStartsWith id "/"

/-- `isLocalDescendant` from the source: within `root` and with no
`/node_modules/` below it (`nodeModulesRE.test(path.slice(root.length))`). -/
def isLocalDescendant (path root : String) : Bool :=
  strStartsWith path root &&
    !(listInfix "/node_modules/".toList (strDrop path (strLength root)).toList)

/-- `/\.tsx?$/`: the strings it accepts end in `.ts` or `.tsx`. -/
def testTsImporter (s : String) : Bool :=
  strEndsWith s ".ts" || strEndsWith s ".tsx"

/-- `/\.(vue|svelte|mdx|mjs|[jt]sx?)$/`. -/
def testAllowJsImporter (s : String) : Bool :=
  testTsImporter s || strEndsWith s ".js" || strEndsWith s ".jsx" ||
  strEndsWith s ".mjs" || strEndsWith s ".vue" || strEndsWith s ".svelte" ||
  strEndsWith s ".mdx"

/-- `/./` (the `loose` gate): accepts any string holding a
non-newline character. -/
def testAnyImporter (s : String) : Bool := s.toList.any (fun c => c ≠ '\n')

/-- The `importerExtRE` chosen in `createResolver`, by `loose` and the
effective `allowJs`. -/
def importerExtTest (loose allowJs : Bool) : String → Bool :=
  if loose then testAnyImporter
  else if allowJs then testAllowJsImporter else testTsImporter

/-! ## Configuration loading and the per-project resolve function -/

/-- The fields of a successfully loaded `tsconfig-paths` config that the
plugin reads.  `paths` models `config.paths` together with the matcher
`createMatchPathAsync` compiles from it (an external collaborator,
abstracted as a function; the `extensions`/`mainFields` arguments are
absorbed into it): `none` when the config declares no `"paths"` map. -/
structure LoadedConfig where
  absoluteBaseUrl : String
  paths : Option (String → Option String)
  configFileAbsolutePath : String

/-- Result of the external `loadConfig`. -/
inductive ConfigResult where
  | failed
  | ok (cfg : LoadedConfig)

/-- The inner `resolveId` closure of `createResolver` (lines 86-123):
base-URL resolution always exists; when `config.paths` is present the
alias matcher runs first and its hit is handed to `viteResolve` after
`normalizePath`, falling back to the base-URL attempt when either the
matcher or `viteResolve` comes up empty. -/
def mkResolveIdFn (viteResolve : String → String → Option String)
    (cfg : LoadedConfig) : String → String → Option String :=
  let resolveWithBaseUrl := fun id importer =>
    viteResolve (posixJoin cfg.absoluteBaseUrl id) importer
  match cfg.paths with
  | none => resolveWithBaseUrl
  | some matchPath => fun id importer =>
    match matchPath id with
    | some path =>
      match viteResolve (posixNormalize path) importer with
      | some r => some r
      | none => resolveWithBaseUrl id importer
    | none => resolveWithBaseUrl id importer

/-- Everything a compiled Project Resolver closes over (the returned
arrow of `createResolver`, minus its mutable cache, which is threaded
explicitly through `resolverStep`). -/
structure ResolverEnv where
  root : String
  importerExt : String → Bool
  isIncluded : String → Bool
  resolveIdFn : String → String → Option String

/-- The argument `createResolver` hands to `loadConfig`:
`configPath || root`, i.e. the `.json` path itself, else the
slash-terminated directory. -/
def configKeyArg (rootIn : String) : String :=
  if strEndsWith rootIn ".json" then rootIn else rootIn ++ "/"

/-- `createResolver` (lines 75-156): `null` (here `none`) when the
config fails to load; otherwise the resolver closure's environment. -/
def createResolver (loose : Bool) (loadConfig : String → ConfigResult)
    (loadRaw : String → RawTsconfig)
    (viteResolve : String → String → Option String)
    (rootIn : String) : Option ResolverEnv :=
  let root := (if strEndsWith rootIn ".json" then posixDirname rootIn else rootIn) ++ "/"
  match loadConfig (configKeyArg rootIn) with
  | .failed => none
  | .ok cfg =>
    let copts := loadCompilerOptions (loadRaw cfg.configFileAbsolutePath)
    some { root := root
           importerExt := importerExtTest loose copts.allowJs
           isIncluded := getIncluder copts
           resolveIdFn := mkResolveIdFn viteResolve cfg }

/-- The resolver cache (`resolved : Map<string, string>`), as an
association list; `Map.get`. -/
def lookupCache : List (String × String) → String → Option String
  | [], _ => none
  | (k, v) :: rest, id => if k == id then some v else lookupCache rest id

/-- Outcome of one call to a Project Resolver: the returned value, the
cache afterwards, and how many alias/base resolution attempts (calls of
the inner `resolveId`) the call performed. -/
structure StepResult where
  result : Option String
  cache : List (String × String)
  attempts : Nat
deriving DecidableEq

/-- One call of the resolver closure returned by `createResolver`
(lines 136-155): gate on the importer extension, consult the cache,
check root-descendant ownership and the inclusion filter, then run the
inner `resolveId` and cache a successful result. -/
def resolverStep (env : ResolverEnv) (cache : List (String × String))
    (id importer : String) : StepResult :=
  if env.importerExt importer then
    match lookupCache cache id with
    | some path => ⟨some path, cache, 0⟩
    | none =>
      if isLocalDescendant importer env.root then
        if !env.isIncluded (strDrop importer (strLength env.root)) then
          ⟨none, cache, 0⟩
        else
          match env.resolveIdFn id importer with
          | some path => ⟨some path, (id, path) :: cache, 1⟩
          | none => ⟨none, cache, 1⟩
      else ⟨none, cache, 0⟩
  else ⟨none, cache, 0⟩

/-- `projects.map(createResolver).filter(Boolean)` (line 58). -/
def buildResolvers (loose : Bool) (loadConfig : String → ConfigResult)
    (loadRaw : String → RawTsconfig)
    (viteResolve : String → String → Option String)
    (projects : List String) : List ResolverEnv :=
  ((projects.map (createResolver loose loadConfig loadRaw viteResolve)).filterMap id)

/-! ## Project discovery and ordering -/

/-- Depth of a project path (lines 221-222): `split('/').length`, minus
one when the entry names the config file itself (`.json` suffix). -/
def projDepth (p : String) : Nat :=
  (splitOnChar '/' p.toList).length - (if strEndsWith p ".json" then 1 else 0)

/-- Insert into a depth-descending list, after any element of equal
depth (stability). -/
def insertByDepth (x : String) : List String → List String
  | [] => [x]
  | y :: ys =>
    if projDepth y ≤ projDepth x then x :: y :: ys
    else y :: insertByDepth x ys

/-- Stable sort by strictly descending depth; models
`projects.sort((a, b) => depthMap[b] - depthMap[a])` (JS `Array.sort`
is a stable comparison sort, and `depthMap[p]` is determined by `p`). -/
def sortByDepthDesc : List String → List String
  | [] => []
  | x :: xs => insertByDepth x (sortByDepthDesc xs)

/-- The crawl root of `findProjects` (lines 205-207). -/
def rootOf (viteRoot : String) (optsRoot : Option String) : String :=
  match optsRoot with
  | some r => posixNormalize (posixResolve2 viteRoot r)
  | none => viteRoot

/-- `findProjects` (lines 204-228).  `projects` stands for
`opts.projects` or, when absent, the external crawl's result list;
each entry is resolved against the root after `normalizePath`, then the
list is sorted deepest-first. -/
def findProjects (viteRoot : String) (optsRoot : Option String)
    (projects : List String) : List String :=
  sortByDepthDesc
    (projects.map (fun p => posixResolve2 (rootOf viteRoot optsRoot) (posixNormalize p)))

/-- `getFileExtensions` (lines 230-233); `none` models the option being
absent (an explicitly supplied empty array is `some []`, truthy in JS). -/
def requiredExts : List String := [".ts", ".tsx", ".js", ".jsx", ".mjs"]

def getFileExtensions : Option (List String) → List String
  | some exts => exts ++ requiredExts
  | none => requiredExts

/-! ## The orchestrator (`this.resolveId`, lines 59-68) -/

/-- Walk the resolver list; return the first hit together with the
number of resolvers actually consulted.  Each resolver is taken at its
current cache state as a plain function (a single orchestrator call
never revisits a resolver). -/
def runResolvers : List (String → String → Option String) → String → String →
    Option String × Nat
  | [], _, _ => (none, 0)
  | r :: rs, id, importer =>
    match r id importer with
    | some x => (some x, 1)
    | none =>
      let p := runResolvers rs id importer
      (p.1, p.2 + 1)

/-- The plugin's `resolveId` hook: eligibility gate (importer present,
specifier neither relative nor absolute), then first-hit iteration.
Also reports how many Project Resolvers were consulted. -/
def pluginResolveId (resolvers : List (String → String → Option String))
    (id : String) (importer : Option String) : Option String × Nat :=
  match importer with
  | none => (none, 0)
  | some imp =>
    if !(relativeImportTest id) && !(isAbsoluteTest id) then
      runResolvers resolvers id imp
    else (none, 0)

/-! ## Shared concrete fixtures (abstract collaborators instantiated for
witnesses and counterexamples) -/

/-- A `loadConfig` that always succeeds with a paths-free config rooted
at `/proj` (`baseUrl = /proj/src`). -/
def lcNoPaths : String → ConfigResult := fun _ =>
  .ok { absoluteBaseUrl := "/proj/src", paths := none,
        configFileAbsolutePath := "/proj/tsconfig.json" }

/-- A raw tsconfig with no `include`/`exclude`/`allowJs`/`checkJs`. -/
def lrEmpty : String → RawTsconfig := fun _ => ⟨none, none, false, false⟩

/-- A Vite resolver that always declines. -/
def vrNone : String → String → Option String := fun _ _ => none

/-- A Vite resolver that always resolves to a fixed id. -/
def vrHit : String → String → Option String := fun _ _ => some "/proj/src/foo.ts"

/-- Fallback environment for `Option.getD` (never reached in the
fixtures below, all of which load successfully). -/
def envFallback : ResolverEnv :=
  { root := "", importerExt := fun _ => false, isIncluded := fun _ => false,
    resolveIdFn := fun _ _ => none }

/-- The resolver `createResolver` builds for root `/proj` when every
resolution attempt comes back empty. -/
def envNoPaths : ResolverEnv :=
  (createResolver false lcNoPaths lrEmpty vrNone "/proj").getD envFallback

/-- Same project, but the external resolver always succeeds. -/
def envHit : ResolverEnv :=
  (createResolver false lcNoPaths lrEmpty vrHit "/proj").getD envFallback

/-! ## C1 -/

/-- C1: a relative specifier (`./`/`../`), an absolute specifier, or a
missing importer makes the orchestrator's `resolveId` consult no
Project Resolver (consultation count 0) and return none. -/
theorem orchestrator_gate_rejects
    (resolvers : List (String → String → Option String))
    (id : String) (importer : Option String)
    (h : relativeImportTest id = true ∨ isAbsoluteTest id = true ∨ importer = none) :
    pluginResolveId resolvers id importer = (none, 0) := by
  match importer with
  | none => rfl
  | some imp =>
    rcases h with h | h | h
    · simp [pluginResolveId, h]
    · simp [pluginResolveId, h]
    · cases h

/-- Witness for C1: a relative specifier with an eager resolver present
is still declined without consulting it. -/
theorem orchestrator_gate_rejects_witness :
    pluginResolveId [fun _ _ => some "/proj/src/x.ts"] "./x" (some "/proj/m.ts")
      = (none, 0) :=
  orchestrator_gate_rejects _ "./x" _ (Or.inl (by decide))

/-! ## C4 -/

/-- C4 counterexample: with `extensions = [".vue"]` the computed list
puts the user extension first, not after the required ones as the claim
states. -/
theorem extensions_order_counterexample :
    getFileExtensions (some [".vue"]) = [".vue", ".ts", ".tsx", ".js", ".jsx", ".mjs"] ∧
    getFileExtensions (some [".vue"]) ≠ requiredExts ++ [".vue"] := by
  exact ⟨by decide, by decide⟩

/-- C4 amended: the user-supplied extensions come first and the required
extensions `.ts, .tsx, .js, .jsx, .mjs` are appended after them; with no
`extensions` option the list is exactly the required extensions. -/
theorem extensions_order_amended :
    (∀ exts, getFileExtensions (some exts) = exts ++ requiredExts) ∧
    getFileExtensions none = requiredExts :=
  ⟨fun _ => rfl, rfl⟩

/-! ## C5 -/

theorem any_map_comp {α β : Type} (f : α → β) (p : β → Bool) :
    ∀ l : List α, (l.map f).any p = l.any (fun a => p (f a))
  | [] => rfl
  | x :: xs => by simp [any_map_comp f p xs]

/-- The boolean the inclusion filter computes, in closed form. -/
theorem getIncluder_eq (inc exc : List String) (b : Bool) (path : String) :
    getIncluder ⟨some inc, some exc, b⟩ path =
      ((inc.isEmpty || inc.any fun g => tokMatch (compileGlob g) path.toList) &&
       (exc.isEmpty || !(exc.any fun g => tokMatch (compileGlob g) path.toList))) := by
  cases inc <;> cases exc <;>
    simp [getIncluder, any_map_comp]

/-- C5: the inclusion filter's truth table — with both lists empty every
path is accepted, and in general a path is accepted iff (no include
patterns or some include pattern matches) and (no exclude patterns or no
exclude pattern matches), so a matching exclude always overrides a
matching include. -/
theorem includer_truth_table (inc exc : List String) (path : String) :
    (getIncluder ⟨some [], some [], false⟩ path = true) ∧
    (getIncluder ⟨some inc, some exc, false⟩ path = true ↔
      ((inc = [] ∨ ∃ g ∈ inc, tokMatch (compileGlob g) path.toList = true) ∧
       (exc = [] ∨ ∀ g ∈ exc, tokMatch (compileGlob g) path.toList = false))) := by
  refine ⟨rfl, ?_⟩
  rw [getIncluder_eq]
  simp [List.isEmpty_iff, List.any_eq_true]

/-! ## C6 -/

/-- C6: the compiled filter for `include = ["src"]`,
`exclude = ["src/generated"]` accepts `src/app.ts`, rejects
`src/generated/x.ts`, and rejects `lib/app.ts`. -/
theorem includer_example :
    getIncluder ⟨some ["src"], some ["src/generated"], false⟩ "src/app.ts" = true ∧
    getIncluder ⟨some ["src"], some ["src/generated"], false⟩ "src/generated/x.ts" = false ∧
    getIncluder ⟨some ["src"], some ["src/generated"], false⟩ "lib/app.ts" = false :=
  ⟨by decide, by decide, by decide⟩

/-! ## C2 -/

/-- C2 counterexample: the cache is consulted before the ownership
check, so a resolver with a cached entry for `"foo"` returns that entry
even for the importer `/outside/main.ts`, which is not a descendant of
its root `/proj/` — the claim's "returns none regardless of any
previously resolved result" fails. -/
theorem resolver_cached_nonlocal_counterexample :
    isLocalDescendant "/outside/main.ts" envNoPaths.root = false ∧
    (resolverStep envNoPaths [("foo", "/proj/src/foo.ts")] "foo" "/outside/main.ts").result
      = some "/proj/src/foo.ts" ∧
    (resolverStep envNoPaths [("foo", "/proj/src/foo.ts")] "foo" "/outside/main.ts").result
      ≠ none :=
  ⟨by decide, by decide, by decide⟩

/-- C2 amended: when the importer is not a local descendant of the
resolver's root (outside it, or inside `node_modules` below it), the
call performs no resolution attempt and caches nothing; it returns none
unless the importer passes the extension gate and the specifier already
has a cached result, in which case that cached result is returned. -/
theorem resolver_nonlocal_no_attempt (env : ResolverEnv)
    (cache : List (String × String)) (id importer : String)
    (h : isLocalDescendant importer env.root = false) :
    resolverStep env cache id importer =
      ⟨if env.importerExt importer then lookupCache cache id else none, cache, 0⟩ := by
  by_cases hgate : env.importerExt importer = true
  · cases hcl : lookupCache cache id with
    | some p => simp [resolverStep, hgate, hcl]
    | none => simp [resolverStep, hgate, hcl, h]
  · simp [resolverStep, hgate]

/-- Witness for the amended C2: an uncached specifier from an importer
outside the root is declined with the cache untouched. -/
theorem resolver_nonlocal_no_attempt_witness :
    resolverStep envNoPaths [("foo", "/proj/src/foo.ts")] "bar" "/outside/main.ts" =
      ⟨if envNoPaths.importerExt "/outside/main.ts" then
          lookupCache [("foo", "/proj/src/foo.ts")] "bar" else none,
        [("foo", "/proj/src/foo.ts")], 0⟩ :=
  resolver_nonlocal_no_attempt envNoPaths _ "bar" "/outside/main.ts" (by decide)

/-! ## C3 -/

/-- C3 counterexample: a "no match" outcome is not cached (`resolved.set`
runs only on a truthy path), so resolving the same `(specifier, importer)`
pair a second time after a failed first attempt performs a second
alias/base resolution attempt — refuting "at most one resolution attempt
per specifier per resolver per session". -/
theorem resolver_nomatch_recomputes_counterexample :
    (resolverStep envNoPaths [] "foo" "/proj/main.ts").attempts = 1 ∧
    (resolverStep envNoPaths [] "foo" "/proj/main.ts").result = none ∧
    (resolverStep envNoPaths (resolverStep envNoPaths [] "foo" "/proj/main.ts").cache
        "foo" "/proj/main.ts").attempts = 1 :=
  ⟨by decide, by decide, by decide⟩

/-- C3 amended: a second resolve call with the same pair returns a
result equal to the first call's result, and whenever the first call
returned a successful result, the second call performs no new
resolution attempt (it is served from the cache); only "no match"
outcomes are re-attempted, because they are never cached. -/
theorem resolver_idempotent_amended (env : ResolverEnv)
    (cache : List (String × String)) (id importer : String) :
    ((resolverStep env (resolverStep env cache id importer).cache id importer).result
        = (resolverStep env cache id importer).result) ∧
    ((resolverStep env cache id importer).result ≠ none →
      (resolverStep env (resolverStep env cache id importer).cache id importer).attempts = 0) := by
  by_cases hgate : env.importerExt importer = true
  · cases hcl : lookupCache cache id with
    | some p => simp [resolverStep, hgate, hcl]
    | none =>
      by_cases hloc : isLocalDescendant importer env.root = true
      · by_cases hinc : env.isIncluded (strDrop importer (strLength env.root)) = true
        · cases hres : env.resolveIdFn id importer with
          | some p =>
            simp [resolverStep, hgate, hcl, hloc, hinc, hres, lookupCache]
          | none =>
            simp [resolverStep, hgate, hcl, hloc, hinc, hres]
        · simp [resolverStep, hgate, hcl, hloc, hinc]
      · simp [resolverStep, hgate, hcl, hloc]
  · simp [resolverStep, hgate]

/-- Witness for the amended C3: after a successful first resolution the
second call returns the same result from the cache with no new attempt. -/
theorem resolver_idempotent_amended_witness :
    ((resolverStep envHit (resolverStep envHit [] "foo" "/proj/main.ts").cache
        "foo" "/proj/main.ts").result
      = (resolverStep envHit [] "foo" "/proj/main.ts").result) ∧
    (resolverStep envHit (resolverStep envHit [] "foo" "/proj/main.ts").cache
        "foo" "/proj/main.ts").attempts = 0 :=
  ⟨(resolver_idempotent_amended envHit [] "foo" "/proj/main.ts").1,
   (resolver_idempotent_amended envHit [] "foo" "/proj/main.ts").2 (by decide)⟩

/-! ## C9 -/

/-- Does loading the config for project entry `p` fail? -/
def isFailedAt (loadConfig : String → ConfigResult) (p : String) : Bool :=
  match loadConfig (configKeyArg p) with
  | .failed => true
  | .ok _ => false

/-- C9: a candidate whose config load fails contributes no Project
Resolver (`createResolver` yields none) and is silently dropped from
the resolver list, while every successfully loading candidate still
gets its resolver. -/
theorem failed_config_skipped (loose : Bool) (lc : String → ConfigResult)
    (lr : String → RawTsconfig) (vr : String → String → Option String)
    (projects : List String) :
    (buildResolvers loose lc lr vr projects
      = (projects.filter (fun p => !(isFailedAt lc p))).filterMap
          (createResolver loose lc lr vr)) ∧
    (∀ p, lc (configKeyArg p) = .failed → createResolver loose lc lr vr p = none) ∧
    (∀ p cfg, lc (configKeyArg p) = .ok cfg →
      (createResolver loose lc lr vr p).isSome = true) := by
  refine ⟨?_, ?_, ?_⟩
  · induction projects with
    | nil => rfl
    | cons p ps ih =>
      cases hc : lc (configKeyArg p) with
      | failed =>
        simp only [buildResolvers, List.map_cons, List.filterMap_cons,
          List.filter_cons] at *
        simp [createResolver, hc, isFailedAt, ih]
      | ok cfg =>
        simp only [buildResolvers, List.map_cons, List.filterMap_cons,
          List.filter_cons] at *
        simp [createResolver, hc, isFailedAt, ih]
  · intro p hp
    simp [createResolver, hp]
  · intro p cfg hp
    simp [createResolver, hp]

/-- A `loadConfig` that fails for the `/proj/bad/` directory and
succeeds everywhere else. -/
def lcMixed : String → ConfigResult := fun key =>
  if key == "/proj/bad/" then .failed else
  .ok { absoluteBaseUrl := "/proj/src", paths := none,
        configFileAbsolutePath := "/proj/tsconfig.json" }

/-- Witness for C9: the failing candidate yields no resolver, the
healthy sibling still yields one. -/
theorem failed_config_skipped_witness :
    createResolver false lcMixed lrEmpty vrNone "/proj/bad" = none ∧
    (createResolver false lcMixed lrEmpty vrNone "/proj/good").isSome = true :=
  ⟨(failed_config_skipped false lcMixed lrEmpty vrNone []).2.1 "/proj/bad" rfl,
   (failed_config_skipped false lcMixed lrEmpty vrNone []).2.2 "/proj/good"
     { absoluteBaseUrl := "/proj/src", paths := none,
       configFileAbsolutePath := "/proj/tsconfig.json" } rfl⟩

/-! ## C10 -/

/-- C10: with no `paths` map, or when the alias matcher produces no
result, resolution falls through to joining the specifier onto
`absoluteBaseUrl` and handing that candidate to the external resolver;
and a successful alias resolution takes precedence over the base-path
result. -/
theorem alias_then_base_fallback (vr : String → String → Option String)
    (cfg : LoadedConfig) (id importer : String) :
    (cfg.paths = none →
      mkResolveIdFn vr cfg id importer
        = vr (posixJoin cfg.absoluteBaseUrl id) importer) ∧
    (∀ mp, cfg.paths = some mp → mp id = none →
      mkResolveIdFn vr cfg id importer
        = vr (posixJoin cfg.absoluteBaseUrl id) importer) ∧
    (∀ mp p r, cfg.paths = some mp → mp id = some p →
      vr (posixNormalize p) importer = some r →
      mkResolveIdFn vr cfg id importer = some r) := by
  refine ⟨?_, ?_, ?_⟩
  · intro h; simp [mkResolveIdFn, h]
  · intro mp h hm; simp [mkResolveIdFn, h, hm]
  · intro mp p r h hm hv; simp [mkResolveIdFn, h, hm, hv]

/-- A config whose alias matcher rewrites `@u/f` and nothing else. -/
def cfgAlias : LoadedConfig :=
  { absoluteBaseUrl := "/proj/src",
    paths := some (fun id => if id == "@u/f" then some "/proj/src/u/f" else none),
    configFileAbsolutePath := "/proj/tsconfig.json" }

/-- An external resolver that confirms every candidate path as-is. -/
def vrEcho : String → String → Option String := fun p _ => some p

/-- Witness for C10: the aliased specifier resolves through the matcher,
the unmatched one falls through to the base path. -/
theorem alias_then_base_fallback_witness :
    mkResolveIdFn vrEcho cfgAlias "@u/f" "/proj/src/m.ts" = some "/proj/src/u/f" ∧
    mkResolveIdFn vrEcho cfgAlias "other" "/proj/src/m.ts"
      = vrEcho (posixJoin cfgAlias.absoluteBaseUrl "other") "/proj/src/m.ts" :=
  ⟨(alias_then_base_fallback vrEcho cfgAlias "@u/f" "/proj/src/m.ts").2.2
      _ "/proj/src/u/f" "/proj/src/u/f" rfl (by decide) (by decide),
   (alias_then_base_fallback vrEcho cfgAlias "other" "/proj/src/m.ts").2.1
      _ rfl (by decide)⟩

/-! ## C7 -/

theorem mem_insertByDepth (a x : String) :
    ∀ l : List String, a ∈ insertByDepth x l ↔ a = x ∨ a ∈ l
  | [] => by simp [insertByDepth]
  | y :: ys => by
    by_cases h : projDepth y ≤ projDepth x
    · simp [insertByDepth, h]
    · simp only [insertByDepth, if_neg h, List.mem_cons, mem_insertByDepth a x ys]
      tauto

theorem pairwise_insertByDepth (x : String) :
    ∀ l : List String, l.Pairwise (fun a b => projDepth b ≤ projDepth a) →
      (insertByDepth x l).Pairwise (fun a b => projDepth b ≤ projDepth a)
  | [], _ => by simp [insertByDepth]
  | y :: ys, h => by
    rw [List.pairwise_cons] at h
    by_cases hc : projDepth y ≤ projDepth x
    · simp only [insertByDepth, if_pos hc]
      rw [List.pairwise_cons]
      refine ⟨?_, List.pairwise_cons.mpr h⟩
      intro z hz
      rcases List.mem_cons.mp hz with rfl | hz
      · exact hc
      · exact le_trans (h.1 z hz) hc
    · simp only [insertByDepth, if_neg hc]
      rw [List.pairwise_cons]
      constructor
      · intro z hz
        rcases (mem_insertByDepth z x ys).mp hz with rfl | hz
        · exact le_of_lt (lt_of_not_le hc)
        · exact h.1 z hz
      · exact pairwise_insertByDepth x ys h.2

theorem insertByDepth_perm (x : String) :
    ∀ l : List String, (insertByDepth x l).Perm (x :: l)
  | [] => List.Perm.refl _
  | y :: ys => by
    by_cases h : projDepth y ≤ projDepth x
    · simp [insertByDepth, h]
    · simp only [insertByDepth, if_neg h]
      exact ((insertByDepth_perm x ys).cons y).trans (List.Perm.swap x y ys)

theorem sortByDepthDesc_pairwise : ∀ l : List String,
    (sortByDepthDesc l).Pairwise (fun a b => projDepth b ≤ projDepth a)
  | [] => List.Pairwise.nil
  | x :: xs => pairwise_insertByDepth x _ (sortByDepthDesc_pairwise xs)

theorem sortByDepthDesc_perm : ∀ l : List String, (sortByDepthDesc l).Perm l
  | [] => List.Perm.refl _
  | x :: xs =>
    (insertByDepth_perm x (sortByDepthDesc xs)).trans ((sortByDepthDesc_perm xs).cons x)

theorem runResolvers_le (id imp : String) :
    ∀ (rs : List (String → String → Option String)) (i : Nat)
      (r : String → String → Option String) (x : String),
      rs.get? i = some r → r id imp = some x →
      (runResolvers rs id imp).2 ≤ i + 1
  | [], i, r, x, hget, _ => by simp at hget
  | r0 :: rest, 0, r, x, hget, hx => by
    simp only [List.get?] at hget
    cases hget
    simp [runResolvers, hx]
  | r0 :: rest, i + 1, r, x, hget, hx => by
    simp only [List.get?] at hget
    cases h0 : r0 id imp with
    | some y =>
      simp only [runResolvers, h0]
      omega
    | none =>
      simp only [runResolvers, h0]
      have := runResolvers_le id imp rest i r x hget hx
      simpa using Nat.add_le_add_right this 1

/-- C7: discovered project paths come out of `findProjects` in
(non-strictly) descending `projDepth` order — where `projDepth` counts
`/`-separated segments and drops one for a `.json`-named entry — so a
strictly deeper config precedes a shallower one; and the orchestrator's
walk consults resolvers in list order, stopping with the first success:
if the resolver at index `i` succeeds, at most `i + 1` resolvers are
consulted (so everything after it, in particular every shallower
config, is never consulted), and a resolver is consulted only after all
its predecessors returned none. -/
theorem depth_precedence (viteRoot : String) (optsRoot : Option String)
    (ps : List String) (rs : List (String → String → Option String))
    (id imp : String) :
    ((findProjects viteRoot optsRoot ps).Pairwise
      (fun a b => projDepth b ≤ projDepth a)) ∧
    (∀ i r x, rs.get? i = some r → r id imp = some x →
      (runResolvers rs id imp).2 ≤ i + 1) ∧
    (∀ j, j < (runResolvers rs id imp).2 → ∀ i, i < j →
      ∀ r, rs.get? i = some r → r id imp = none) := by
  refine ⟨sortByDepthDesc_pairwise _, fun i r x => runResolvers_le id imp rs i r x, ?_⟩
  intro j hj i hij r hget
  cases hx : r id imp with
  | none => rfl
  | some x =>
    have := runResolvers_le id imp rs i r x hget hx
    omega

/-- Witness for C7: three sibling/ancestor configs come out
deepest-first, and a succeeding first resolver stops the walk at one
consultation. -/
theorem depth_precedence_witness :
    ((findProjects "/proj" none
        ["/proj/tsconfig.json", "/proj/a/tsconfig.json", "/proj/b/tsconfig.json"]).Pairwise
      (fun a b => projDepth b ≤ projDepth a)) ∧
    (runResolvers [fun _ _ => some "/proj/a/x.ts", fun _ _ => none] "x" "/proj/m.ts").2
      ≤ 0 + 1 :=
  ⟨(depth_precedence "/proj" none
      ["/proj/tsconfig.json", "/proj/a/tsconfig.json", "/proj/b/tsconfig.json"]
      [] "x" "/proj/m.ts").1,
   (depth_precedence "/proj" none []
      [fun _ _ => some "/proj/a/x.ts", fun _ _ => none] "x" "/proj/m.ts").2.1
      0 _ "/proj/a/x.ts" rfl rfl⟩

/-! ## C8 -/

theorem strStartsWith_slash_mk (l : List Char) :
    strStartsWith (String.mk ('/' :: l)) "/" = true := by
  simp [strStartsWith, List.isPrefixOf]

theorem strStartsWith_append (a b : String) (h : strStartsWith a "/" = true) :
    strStartsWith (a ++ b) "/" = true := by
  unfold strStartsWith at *
  rw [List.isPrefixOf_iff_prefix] at *
  have hd : (a ++ b).toList = a.toList ++ b.toList := String.data_append a b
  rw [hd]
  exact h.trans (List.prefix_append _ _)

theorem posixResolve2_abs (a b : String) (h : strStartsWith a "/" = true) :
    strStartsWith (posixResolve2 a b) "/" = true := by
  have hj : strStartsWith
      (if strStartsWith b "/" then b else if b = "" then a else if a = "" then b
       else a ++ "/" ++ b) "/" = true := by
    by_cases hb : strStartsWith b "/" = true
    · simp [hb]
    · by_cases hbe : b = ""
      · have he : strStartsWith "" "/" = false := by decide
        simp [hb, hbe, he, h]
      · by_cases hae : a = ""
        · rw [hae] at h; exact absurd h (by decide)
        · simp only [hb, Bool.false_eq_true, if_false, if_neg hbe, if_neg hae]
          exact strStartsWith_append _ _ (strStartsWith_append _ _ h)
  unfold posixResolve2
  simp only [hj, if_true]
  exact strStartsWith_slash_mk _

theorem posixNormalize_abs (p : String) (h : strStartsWith p "/" = true) :
    strStartsWith (posixNormalize p) "/" = true := by
  have hp : ¬ (p = "") := by
    intro e; rw [e] at h; exact absurd h (by decide)
  unfold posixNormalize
  simp only [hp, if_false, h, if_true, Bool.not_true, String.toList]
  by_cases hbody : joinSegs (normSegs false [] (splitOnChar '/' p.data)) = []
  · rw [if_pos hbody]
    decide
  · rw [if_neg hbody]
    exact strStartsWith_slash_mk _

theorem rootOf_abs (viteRoot : String) (optsRoot : Option String)
    (h : strStartsWith viteRoot "/" = true) :
    strStartsWith (rootOf viteRoot optsRoot) "/" = true := by
  cases optsRoot with
  | none => exact h
  | some r => exact posixNormalize_abs _ (posixResolve2_abs _ _ h)

/-- C8 counterexample: `findProjects` never deduplicates — the same
configuration path given twice survives twice in the ordered output,
refuting "the returned ordered project list contains that path exactly
once". -/
theorem findProjects_duplicate_counterexample :
    findProjects "/proj" none ["/proj/a/tsconfig.json", "/proj/a/tsconfig.json"]
      = ["/proj/a/tsconfig.json", "/proj/a/tsconfig.json"] ∧
    List.count "/proj/a/tsconfig.json"
      (findProjects "/proj" none ["/proj/a/tsconfig.json", "/proj/a/tsconfig.json"]) = 2 :=
  ⟨by decide, by decide⟩

/-- C8 amended: discovery normalizes every listed configuration path to
an absolute path (given an absolute crawl root), but does not
deduplicate: every entry's multiplicity in the ordered output equals
its multiplicity among the normalized inputs. -/
theorem findProjects_no_dedup (viteRoot : String) (optsRoot : Option String)
    (ps : List String) (h : strStartsWith viteRoot "/" = true) :
    (∀ q ∈ findProjects viteRoot optsRoot ps, strStartsWith q "/" = true) ∧
    (∀ q, List.count q (findProjects viteRoot optsRoot ps)
        = List.count q (ps.map (fun p =>
            posixResolve2 (rootOf viteRoot optsRoot) (posixNormalize p)))) := by
  constructor
  · intro q hq
    have hq' : q ∈ ps.map (fun p =>
        posixResolve2 (rootOf viteRoot optsRoot) (posixNormalize p)) :=
      (sortByDepthDesc_perm _).mem_iff.mp hq
    rcases List.mem_map.mp hq' with ⟨p, _, rfl⟩
    exact posixResolve2_abs _ _ (rootOf_abs viteRoot optsRoot h)
  · intro q
    exact (sortByDepthDesc_perm _).count_eq q

/-- Witness for the amended C8: two relative spellings of the same
config normalize to the same absolute path, which is absolute and keeps
its multiplicity. -/
theorem findProjects_no_dedup_witness :
    strStartsWith "/proj/a/tsconfig.json" "/" = true ∧
    List.count "/proj/a/tsconfig.json"
        (findProjects "/proj" none ["./a/tsconfig.json", "a/tsconfig.json"])
      = List.count "/proj/a/tsconfig.json"
        (["./a/tsconfig.json", "a/tsconfig.json"].map
          (fun p => posixResolve2 (rootOf "/proj" none) (posixNormalize p))) :=
  ⟨(findProjects_no_dedup "/proj" none ["./a/tsconfig.json", "a/tsconfig.json"]
      (by decide)).1 "/proj/a/tsconfig.json" (by decide),
   (findProjects_no_dedup "/proj" none ["./a/tsconfig.json", "a/tsconfig.json"]
      (by decide)).2 "/proj/a/tsconfig.json"⟩
